import Mathlib

/-!
Verification development for the ActorToActor pipeline.

The definitions below are shallow embeddings of the Python sources:
`build_actor_map.py` (credit filtering, co-appearance graph construction,
difficulty-stratified path precomputation, path compression) and
`update_actor_data.py` (years-active, custom popularity score, region
assignment, API retry loop).  Machine strings are modelled as Lean
`String` via their character lists, numbers as `Nat`/`Int`/`ℚ`, and
external effects (HTTP fetches, `np.random.choice`, `nx.shortest_path`)
as explicit function parameters.
-/

/-- Characters treated as whitespace by Python `str.strip`. -/
def pySpace (c : Char) : Bool :=
  c == ' ' || c == '\t' || c == '\n' || c == '\r'

/-- Model of Python `str.lower` (ASCII case folding). -/
def lowerStr (s : String) : String :=
  ⟨s.data.map Char.toLower⟩

/-- Model of Python `str.strip`. -/
def trimStr (s : String) : String :=
  ⟨((s.data.dropWhile pySpace).reverse.dropWhile pySpace).reverse⟩

/-- Whether `pre` is a leading segment of `l` (used to model Python `in`). -/
def startsWithL : List Char → List Char → Bool
  | [], _ => true
  | _ :: _, [] => false
  | a :: as, b :: bs => a == b && startsWithL as bs

/-- Whether `needle` occurs contiguously inside `hay`. -/
def hasSubL (needle : List Char) : List Char → Bool
  | [] => needle.isEmpty
  | h :: t => startsWithL needle (h :: t) || hasSubL needle t

/-- Model of Python `needle in hay` on strings. -/
def strHasSub (hay needle : String) : Bool :=
  hasSubL needle.data hay.data

/-- First `n` characters of a string, modelling a Python slice `s[:n]`. -/
def takeStr (s : String) (n : Nat) : String :=
  ⟨s.data.take n⟩

/-- Characters from position `a` up to `b`, modelling a Python slice `s[a:b]`. -/
def sliceStr (s : String) (a b : Nat) : String :=
  ⟨(s.data.drop a).take (b - a)⟩

/-- Number of characters, modelling Python `len`. -/
def strLen (s : String) : Nat :=
  s.data.length

/-- Digit-sequence value, `none` on the empty list or a non-digit. -/
def digitsVal : List Char → Option Nat
  | [] => none
  | l => l.foldl (fun acc c =>
      match acc with
      | none => none
      | some n => if c.isDigit then some (n * 10 + (c.toNat - 48)) else none)
      (some 0)

/-- Model of Python `int(s)`: strip whitespace, optional sign, digits;
`none` when `int` would raise `ValueError`. -/
def pyInt (s : String) : Option Int :=
  match (trimStr s).data with
  | [] => none
  | c :: rest =>
    if c == '-' then (digitsVal rest).map (fun n => -(n : Int))
    else if c == '+' then (digitsVal rest).map (fun n => (n : Int))
    else (digitsVal (c :: rest)).map (fun n => (n : Int))

/-! ## build_actor_map.py: data records as consumed by `build_actor_graph` -/

/-- A movie credit row as accessed in `build_actor_graph` (fields read via
`credit.get`, so optional fields model absent keys / SQL NULLs). -/
structure MovieCreditB where
  id : String
  title : Option String
  poster_path : Option String
  popularity : ℚ
  character : Option String
  release_date : Option String
deriving DecidableEq

/-- A TV credit row as loaded by `load_actor_data` (no air-date column). -/
structure TvCreditB where
  id : String
  title : Option String
  poster_path : Option String
  popularity : ℚ
  character : Option String
deriving DecidableEq

/-- An actor record as built by `load_actor_data`. -/
structure ActorB where
  name : String
  popularity : ℚ
  profile_path : Option String
  movie_credits : List MovieCreditB
  tv_credits : List TvCreditB
deriving DecidableEq

/-- `(credit.get('character') or "").strip().lower()`. -/
def normChar (c : Option String) : String :=
  lowerStr (trimStr (c.getD ""))

/-- Year and month parsed from a release-date string:
`int(rd[:4])` and `int(rd[5:7])` when `len(rd) >= 7`, else month `0`;
`none` when the year or month parse raises (the code then proceeds). -/
def dateYM (rd : String) : Option (Int × Int) :=
  match pyInt (takeStr rd 4) with
  | none => none
  | some y =>
    match (if 7 ≤ strLen rd then pyInt (sliceStr rd 5 7) else some 0) with
    | none => none
    | some m => some (y, m)

/-- The future-date skip in the movie-credit loop of `build_actor_graph`:
skip when `release_year > current_year` or same year with a later month.
A missing or unparseable date never skips. -/
def dateSkip (cy cm : Nat) (rd : Option String) : Bool :=
  match rd with
  | none => false
  | some s =>
    if s == "" then false
    else
      match dateYM s with
      | none => false
      | some (y, m) => decide ((cy : Int) < y) || (y == (cy : Int) && decide ((cm : Int) < m))

/-- Self-appearance check for movie credits: character is one of
`self`, `himself`, `herself`, or contains the actor's own name. -/
def movieSelfSkip (actorName : String) (character : String) : Bool :=
  (character == "self" || character == "himself" || character == "herself")
    || strHasSub (lowerStr character) (lowerStr actorName)

/-- Documentary keyword check for movie titles. -/
def movieDocSkip (title : String) : Bool :=
  (["documentary", "behind the scenes"] : List String).any
    (fun kw => strHasSub title kw)

/-- Whether a movie credit survives all movie-side filters in
`build_actor_graph` and is recorded into `credit_to_actors`. -/
def movieQualifies (cy cm : Nat) (actorName : String) (c : MovieCreditB) : Bool :=
  !(dateSkip cy cm c.release_date)
    && !(movieSelfSkip actorName (normChar c.character))
    && !(movieDocSkip (lowerStr (c.title.getD "")))

/-- TV excluded title keywords from `build_actor_graph`. -/
def tvExcludedKeywords : List String :=
  ["talk", "game", "reality", "news", "award", "interview",
   "host", "special", "ceremony", "documentary", "behind", "making of",
   "tonight show", "late night", "late show", "live with", "the view",
   "jimmy", "conan", "ellen", "oprah", "inside the actors studio"]

/-- TV known problematic titles from `build_actor_graph`. -/
def tvExcludedTitles : List String :=
  ["basquiat", "biography", "portrait", "story of"]

/-- Self-appearance check for TV credits: character is one of
`self`, `himself`, `herself`, `themselves`, or contains `self`. -/
def tvSelfSkip (character : String) : Bool :=
  (character == "self" || character == "himself" || character == "herself"
      || character == "themselves")
    || strHasSub character "self"

/-- Character-word check for TV credits. -/
def tvWordSkip (character : String) : Bool :=
  (["interview", "host", "narrator", "voice"] : List String).any
    (fun w => strHasSub character w)

/-- Whether a TV credit survives all TV-side filters in `build_actor_graph`. -/
def tvQualifies (c : TvCreditB) : Bool :=
  let title := lowerStr (c.title.getD "")
  let character := normChar c.character
  !(tvExcludedKeywords.any (fun kw => strHasSub title kw))
    && !(tvExcludedTitles.any (fun t => strHasSub title t))
    && !(tvSelfSkip character)
    && !(tvWordSkip character)

/-- Insertion-ordered map from credit id to the `(actor_id, character)`
entries appended for it, modelling the Python dict `credit_to_actors`. -/
abbrev CTA := List (String × List (String × String))

/-- `credit_to_actors.setdefault(cid, []).append(entry)`. -/
def ctaAdd (cta : CTA) (cid : String) (entry : String × String) : CTA :=
  if cta.any (fun e => e.1 == cid) then
    cta.map (fun e => if e.1 == cid then (e.1, e.2 ++ [entry]) else e)
  else cta ++ [(cid, [entry])]

/-- The movie-credit pass of `build_actor_graph`. -/
def moviePass (cy cm : Nat) (actors : List (String × ActorB)) : CTA :=
  actors.foldl (fun cta a =>
    a.2.movie_credits.foldl (fun cta c =>
      if movieQualifies cy cm a.2.name c then
        ctaAdd cta c.id (a.1, normChar c.character)
      else cta) cta) []

/-- The TV-credit pass of `build_actor_graph`. -/
def tvPass (actors : List (String × ActorB)) (cta : CTA) : CTA :=
  actors.foldl (fun cta a =>
    a.2.tv_credits.foldl (fun cta c =>
      if tvQualifies c then ctaAdd cta c.id (a.1, normChar c.character)
      else cta) cta) cta

/-- The full `credit_to_actors` mapping built by `build_actor_graph`. -/
def credit_to_actors (cy cm : Nat) (include_tv : Bool)
    (actors : List (String × ActorB)) : CTA :=
  let cta := moviePass cy cm actors
  if include_tv then tvPass actors cta else cta

/-! ## build_actor_map.py: edge construction -/

/-- Edge payload: `weight` and the justifying credit ids. -/
structure EdgeData where
  weight : Nat
  credits : List String
deriving DecidableEq

/-- Undirected edge store: entries keyed by the actor pair as first added. -/
abbrev EdgeList := List ((String × String) × EdgeData)

/-- Whether a stored key names the unordered pair `{a, b}`. -/
def keyMatches (k : String × String) (a b : String) : Bool :=
  (k.1 == a && k.2 == b) || (k.1 == b && k.2 == a)

/-- `G.has_edge(a, b)` on the edge store. -/
def hasEdge (G : EdgeList) (a b : String) : Bool :=
  G.any (fun e => keyMatches e.1 a b)

/-- `G[a][b]` on the edge store. -/
def getEdge (G : EdgeList) (a b : String) : Option EdgeData :=
  (G.find? (fun e => keyMatches e.1 a b)).map (fun e => e.2)

/-- `"self" in character`: the per-pair self-referential flag. -/
def selfFlag (character : String) : Bool :=
  strHasSub character "self"

/-- One iteration of the pair loop in `build_actor_graph`: skip when both
characters are flagged self-referential, otherwise increment the existing
edge or create it with weight 1. -/
def addPair (cid : String) (G : EdgeList)
    (p : (String × String) × (String × String)) : EdgeList :=
  if selfFlag p.1.2 && selfFlag p.2.2 then G
  else if hasEdge G p.1.1 p.2.1 then
    G.map (fun e =>
      if keyMatches e.1 p.1.1 p.2.1 then
        (e.1, ⟨e.2.weight + 1, e.2.credits ++ [cid]⟩)
      else e)
  else G ++ [((p.1.1, p.2.1), ⟨1, [cid]⟩)]

/-- All ordered position pairs `i < j` of a list, in double-loop order. -/
def pairsOf {α : Type} : List α → List (α × α)
  | [] => []
  | x :: xs => xs.map (fun y => (x, y)) ++ pairsOf xs

/-- Edge contributions of one credit: skipped entirely for fewer than two
entries, otherwise every `i < j` pair is offered to `addPair`. -/
def addCreditEdges (G : EdgeList) (entry : String × List (String × String)) :
    EdgeList :=
  if entry.2.length < 2 then G
  else (pairsOf entry.2).foldl (addPair entry.1) G

/-- The edge-building phase of `build_actor_graph`. -/
def build_edges (cta : CTA) : EdgeList :=
  cta.foldl addCreditEdges []

/-- The graph built by `build_actor_graph`: all actors as nodes, edges from
shared qualifying credits. -/
structure GraphB where
  nodes : List String
  edges : EdgeList

/-- `build_actor_graph(actors, include_tv)`, with the crawl's execution
year and month (read from `datetime.now()`) as explicit parameters. -/
def build_actor_graph (cy cm : Nat) (include_tv : Bool)
    (actors : List (String × ActorB)) : GraphB :=
  ⟨actors.map (fun a => a.1), build_edges (credit_to_actors cy cm include_tv actors)⟩

/-- Whether `credit_to_actors` records actor `a` as admitted on credit `cid`. -/
def admittedOn (cta : CTA) (cid a : String) : Bool :=
  cta.any (fun e => e.1 == cid && e.2.any (fun x => x.1 == a))

/-- Whether an `i < j` entry pair joins the unordered actor pair `{a, b}`
without being suppressed by the both-self skip. -/
def pairJoins (a b : String) (p : (String × String) × (String × String)) : Bool :=
  keyMatches (p.1.1, p.2.1) a b && !(selfFlag p.1.2 && selfFlag p.2.2)

/-! ## Edge-construction lemmas -/

theorem keyMatches_symm (k : String × String) (a b : String) :
    keyMatches k a b = keyMatches k b a := by
  simp [keyMatches, Bool.or_comm]

theorem keyMatches_congr {a1 a2 a b : String}
    (h : keyMatches (a1, a2) a b = true) (k : String × String) :
    keyMatches k a b = keyMatches k a1 a2 := by
  simp only [keyMatches, Bool.or_eq_true, Bool.and_eq_true, beq_iff_eq] at h
  rcases h with ⟨rfl, rfl⟩ | ⟨rfl, rfl⟩
  · rfl
  · exact keyMatches_symm k _ _

theorem hasEdge_congr {a1 a2 a b : String} (G : EdgeList)
    (h : keyMatches (a1, a2) a b = true) :
    hasEdge G a b = hasEdge G a1 a2 := by
  unfold hasEdge
  congr 1
  funext e
  exact keyMatches_congr h e.1

theorem hasEdge_addPair (cid : String) (G : EdgeList)
    (p : (String × String) × (String × String)) (a b : String) :
    hasEdge (addPair cid G p) a b = (hasEdge G a b || pairJoins a b p) := by
  unfold addPair pairJoins
  by_cases hs : (selfFlag p.1.2 && selfFlag p.2.2) = true
  · simp [hs]
  · rw [if_neg hs]
    rw [Bool.not_eq_true] at hs
    by_cases he : hasEdge G p.1.1 p.2.1 = true
    · rw [if_pos he]
      have hmap : hasEdge (G.map (fun e =>
          if keyMatches e.1 p.1.1 p.2.1 then
            (e.1, (⟨e.2.weight + 1, e.2.credits ++ [cid]⟩ : EdgeData))
          else e)) a b = hasEdge G a b := by
        unfold hasEdge
        rw [List.any_map]
        congr 1
        funext e
        by_cases hk : keyMatches e.1 p.1.1 p.2.1 = true <;> simp [hk]
      rw [hmap]
      by_cases hj : keyMatches (p.1.1, p.2.1) a b = true
      · rw [hj, hasEdge_congr G hj, he]
        simp [hs]
      · rw [Bool.not_eq_true] at hj
        simp [hj]
    · rw [if_neg he]
      unfold hasEdge
      rw [List.any_append]
      simp [hs, hasEdge]

theorem hasEdge_foldl_addPair (cid : String) (a b : String) :
    ∀ (ps : List ((String × String) × (String × String))) (G : EdgeList),
      hasEdge (ps.foldl (addPair cid) G) a b =
        (hasEdge G a b || ps.any (pairJoins a b))
  | [], G => by simp
  | p :: ps, G => by
    rw [List.foldl_cons, hasEdge_foldl_addPair cid a b ps, hasEdge_addPair]
    simp [Bool.or_assoc]

theorem pairsOf_eq_nil_of_short {α : Type} (l : List α) (h : l.length < 2) :
    pairsOf l = [] := by
  match l with
  | [] => rfl
  | [x] => rfl
  | x :: y :: t => simp at h; omega

theorem hasEdge_addCreditEdges (G : EdgeList)
    (e : String × List (String × String)) (a b : String) :
    hasEdge (addCreditEdges G e) a b =
      (hasEdge G a b || (pairsOf e.2).any (pairJoins a b)) := by
  unfold addCreditEdges
  by_cases h : e.2.length < 2
  · rw [if_pos h, pairsOf_eq_nil_of_short e.2 h]
    simp
  · rw [if_neg h, hasEdge_foldl_addPair]

theorem hasEdge_foldl_addCreditEdges (a b : String) :
    ∀ (cta : CTA) (G : EdgeList),
      hasEdge (cta.foldl addCreditEdges G) a b =
        (hasEdge G a b || cta.any (fun e => (pairsOf e.2).any (pairJoins a b)))
  | [], G => by simp
  | e :: cta, G => by
    rw [List.foldl_cons, hasEdge_foldl_addCreditEdges a b cta, hasEdge_addCreditEdges]
    simp [Bool.or_assoc]

/-- The edge-existence characterization of `build_edges`: an edge joins `a`
and `b` exactly when some credit contributes an `i < j` entry pair on these
two actors that is not suppressed by the both-self skip. -/
theorem hasEdge_build_edges (cta : CTA) (a b : String) :
    hasEdge (build_edges cta) a b =
      cta.any (fun e => (pairsOf e.2).any (pairJoins a b)) := by
  unfold build_edges
  rw [hasEdge_foldl_addCreditEdges]
  simp [hasEdge]

/-- Weight bookkeeping invariant of the edge store. -/
def WInv (G : EdgeList) : Prop :=
  ∀ e ∈ G, e.2.weight = e.2.credits.length

theorem WInv_addPair (cid : String) (G : EdgeList)
    (p : (String × String) × (String × String)) (h : WInv G) :
    WInv (addPair cid G p) := by
  unfold addPair
  by_cases hs : (selfFlag p.1.2 && selfFlag p.2.2) = true
  · simpa [hs]
  · rw [if_neg hs]
    by_cases he : hasEdge G p.1.1 p.2.1 = true
    · rw [if_pos he]
      intro e he'
      rw [List.mem_map] at he'
      obtain ⟨x, hx, hxe⟩ := he'
      by_cases hk : keyMatches x.1 p.1.1 p.2.1 = true
      · rw [if_pos hk] at hxe
        subst hxe
        simp [h x hx]
      · rw [if_neg hk] at hxe
        subst hxe
        exact h x hx
    · rw [if_neg he]
      intro e he'
      rw [List.mem_append] at he'
      rcases he' with h1 | h2
      · exact h e h1
      · simp at h2
        subst h2
        rfl

theorem WInv_foldl_addPair (cid : String) :
    ∀ (ps : List ((String × String) × (String × String))) (G : EdgeList),
      WInv G → WInv (ps.foldl (addPair cid) G)
  | [], _, h => h
  | p :: ps, G, h =>
    WInv_foldl_addPair cid ps (addPair cid G p) (WInv_addPair cid G p h)

theorem WInv_addCreditEdges (G : EdgeList) (e : String × List (String × String))
    (h : WInv G) : WInv (addCreditEdges G e) := by
  unfold addCreditEdges
  by_cases hl : e.2.length < 2
  · simpa [hl]
  · rw [if_neg hl]
    exact WInv_foldl_addPair e.1 _ G h

theorem WInv_build_edges (cta : CTA) : WInv (build_edges cta) := by
  unfold build_edges
  have : ∀ (l : CTA) (G : EdgeList), WInv G → WInv (l.foldl addCreditEdges G) := by
    intro l
    induction l with
    | nil => intro G h; exact h
    | cons e t ih => intro G h; exact ih _ (WInv_addCreditEdges G e h)
  exact this cta [] (by intro e he; simp at he)

/-! ## Concrete fixtures -/

/-- Two actors sharing one movie credit on which each plays "Myself":
both survive the movie credit filter, yet the pair loop suppresses the
edge because both characters contain `self`. -/
def cexActors : List (String × ActorB) :=
  [("1", { name := "Aa", popularity := 1, profile_path := none,
           movie_credits := [{ id := "m1", title := some "Spaceship",
                               poster_path := none, popularity := 1,
                               character := some "Myself", release_date := none }],
           tv_credits := [] }),
   ("2", { name := "Bb", popularity := 1, profile_path := none,
           movie_credits := [{ id := "m1", title := some "Spaceship",
                               poster_path := none, popularity := 1,
                               character := some "Myself", release_date := none }],
           tv_credits := [] })]

/-- Two actors sharing one movie credit with ordinary characters. -/
def wActors : List (String × ActorB) :=
  [("1", { name := "Aa", popularity := 1, profile_path := none,
           movie_credits := [{ id := "m2", title := some "Spaceship",
                               poster_path := none, popularity := 1,
                               character := some "Hero", release_date := none }],
           tv_credits := [] }),
   ("2", { name := "Bb", popularity := 1, profile_path := none,
           movie_credits := [{ id := "m2", title := some "Spaceship",
                               poster_path := none, popularity := 1,
                               character := some "Villain", release_date := none }],
           tv_credits := [] })]

/-- C1 counterexample: both actors are admitted on the common credit `m1`
(the movie filter admits the character "Myself"), yet no edge is built,
because the pair loop suppresses pairs whose characters both contain
`self`.  This refutes the claimed "edge exists iff both admitted on a
common credit". -/
theorem c1_counterexample :
    admittedOn (credit_to_actors 2026 10 true cexActors) "m1" "1" = true ∧
    admittedOn (credit_to_actors 2026 10 true cexActors) "m1" "2" = true ∧
    hasEdge (build_actor_graph 2026 10 true cexActors).edges "1" "2" = false := by
  decide

/-- C1 (amended): for any collection of actors, an edge between `a` and `b`
exists iff some qualifying credit records an entry pair on these two actors
that is not suppressed by the both-self skip; and every edge's weight equals
the length of its credit-id list. -/
theorem c1_edge_weight_characterization (cy cm : Nat) (include_tv : Bool)
    (actors : List (String × ActorB)) (a b : String) :
    (hasEdge (build_actor_graph cy cm include_tv actors).edges a b =
      (credit_to_actors cy cm include_tv actors).any
        (fun e => (pairsOf e.2).any (pairJoins a b))) ∧
    (∀ e ∈ (build_actor_graph cy cm include_tv actors).edges,
      e.2.weight = e.2.credits.length) :=
  ⟨hasEdge_build_edges _ a b, WInv_build_edges _⟩

/-- Witness for C1 (amended) at a concrete input: the edge built from the
shared credit `m2` has weight 1 and exactly one credit id. -/
theorem c1_edge_weight_characterization_witness :
    ((("1", "2"), ({ weight := 1, credits := ["m2"] } : EdgeData)) ∈
        (build_actor_graph 2026 10 true wActors).edges) ∧
    ({ weight := 1, credits := ["m2"] } : EdgeData).weight =
      ({ weight := 1, credits := ["m2"] } : EdgeData).credits.length :=
  ⟨by decide,
   (c1_edge_weight_characterization 2026 10 true wActors "1" "2").2
     (("1", "2"), { weight := 1, credits := ["m2"] }) (by decide)⟩

/-- C2: a pair whose two character strings are both flagged
self-referential (contain `self`) contributes neither an edge creation
nor a weight increment for that credit; consequently, when every
admitted entry pair on the two actors is flagged on both sides, no edge
exists between them in the built graph. -/
theorem c2_both_self_pair_suppressed :
    (∀ (cid : String) (G : EdgeList) (p : (String × String) × (String × String)),
        selfFlag p.1.2 = true → selfFlag p.2.2 = true → addPair cid G p = G) ∧
    (∀ (cy cm : Nat) (include_tv : Bool) (actors : List (String × ActorB))
        (a b : String),
        (∀ e ∈ credit_to_actors cy cm include_tv actors, ∀ p ∈ pairsOf e.2,
            keyMatches (p.1.1, p.2.1) a b = true →
            selfFlag p.1.2 = true ∧ selfFlag p.2.2 = true) →
        hasEdge (build_actor_graph cy cm include_tv actors).edges a b = false) := by
  constructor
  · intro cid G p h1 h2
    unfold addPair
    rw [if_pos (by simp [h1, h2])]
  · intro cy cm include_tv actors a b h
    show hasEdge (build_edges (credit_to_actors cy cm include_tv actors)) a b = false
    rw [hasEdge_build_edges]
    rw [List.any_eq_false]
    intro e he
    rw [Bool.not_eq_true, List.any_eq_false]
    intro p hp
    rw [Bool.not_eq_true]
    unfold pairJoins
    by_cases hk : keyMatches (p.1.1, p.2.1) a b = true
    · obtain ⟨h1, h2⟩ := h e he p hp hk
      simp [hk, h1, h2]
    · rw [Bool.not_eq_true] at hk
      simp [hk]

/-- Witness for C2 at a concrete input: both characters of the shared
credit contain `self`, so no edge is built between the two actors. -/
theorem c2_both_self_pair_suppressed_witness :
    hasEdge (build_actor_graph 2026 10 true cexActors).edges "1" "2" = false :=
  c2_both_self_pair_suppressed.2 2026 10 true cexActors "1" "2" (by decide)

/-! ## Claims C4 and C5: credit-filter rules -/

/-- A movie credit whose character is "Themselves": the movie-side filter
list contains only `self`, `himself`, `herself`, so it is admitted. -/
def c4Credit : MovieCreditB :=
  { id := "m9", title := some "Spaceship", poster_path := none, popularity := 1,
    character := some "Themselves", release_date := none }

/-- C4 counterexample: the trimmed lowercased character equals
`themselves`, which the claim says is rejected uniformly, yet the movie
filter admits the credit (its self list lacks `themselves`). -/
theorem c4_counterexample :
    normChar c4Credit.character = "themselves" ∧
    movieQualifies 2026 10 "Aa" c4Credit = true := by
  decide

/-- C4 (amended): movie credits are rejected when the normalized character
equals `self`/`himself`/`herself` or contains the actor's name
(case-insensitively); TV credits are rejected when it equals
`self`/`himself`/`herself`/`themselves` or contains `self` as a
substring.  The two media kinds use different self-appearance rules. -/
theorem c4_self_filter_rules (cy cm : Nat) (name : String)
    (mc : MovieCreditB) (tc : TvCreditB) :
    ((normChar mc.character = "self" ∨ normChar mc.character = "himself" ∨
        normChar mc.character = "herself" ∨
        strHasSub (lowerStr (normChar mc.character)) (lowerStr name) = true) →
      movieQualifies cy cm name mc = false) ∧
    ((normChar tc.character = "self" ∨ normChar tc.character = "himself" ∨
        normChar tc.character = "herself" ∨ normChar tc.character = "themselves" ∨
        strHasSub (normChar tc.character) "self" = true) →
      tvQualifies tc = false) := by
  constructor
  · intro h
    have hskip : movieSelfSkip name (normChar mc.character) = true := by
      unfold movieSelfSkip
      rcases h with h | h | h | h <;> simp [h]
    simp [movieQualifies, hskip]
  · intro h
    have hskip : tvSelfSkip (normChar tc.character) = true := by
      unfold tvSelfSkip
      rcases h with h | h | h | h | h <;> simp [h]
    simp [tvQualifies, hskip]

/-- Movie credit used for the C4 witness. -/
def c4wCredit : MovieCreditB :=
  { id := "m3", title := some "Spaceship", poster_path := none, popularity := 1,
    character := some "Himself", release_date := none }

/-- TV credit used for the C4 witness. -/
def c4wTv : TvCreditB :=
  { id := "t3", title := some "Spaceship", poster_path := none, popularity := 1,
    character := some "Themselves" }

/-- Witness for C4 (amended): a "Himself" movie credit and a "Themselves"
TV credit are both rejected. -/
theorem c4_self_filter_rules_witness :
    movieQualifies 2026 10 "Bb" c4wCredit = false ∧ tvQualifies c4wTv = false :=
  ⟨(c4_self_filter_rules 2026 10 "Bb" c4wCredit c4wTv).1
     (Or.inr (Or.inl (by decide))),
   (c4_self_filter_rules 2026 10 "Bb" c4wCredit c4wTv).2
     (Or.inr (Or.inr (Or.inr (Or.inl (by decide)))))⟩

/-- A movie credit dated later in the crawl's own execution month. -/
def c5Credit : MovieCreditB :=
  { id := "m8", title := some "Spaceship", poster_path := none, popularity := 1,
    character := some "Hero", release_date := some "2026-10-31" }

/-- C5 counterexample: with execution date 2026-10-12 (year 2026,
month 10), a credit released 2026-10-31 — strictly in the future — is
admitted, because the date check compares only year and month. -/
theorem c5_counterexample :
    dateYM "2026-10-31" = some (2026, 10) ∧
    movieQualifies 2026 10 "Aa" c5Credit = true := by
  decide

/-- C5 (amended): a movie credit is skipped by the date check exactly when
its parsed (year, month) is strictly after the execution (year, month);
same-month later days are not rejected, and TV credits in
`build_actor_graph` carry no date and undergo no date check. -/
theorem c5_future_date_rules (cy cm : Nat) (name : String) (mc : MovieCreditB) :
    (dateSkip cy cm mc.release_date = true → movieQualifies cy cm name mc = false) ∧
    (∀ (s : String) (y m : Int), mc.release_date = some s → dateYM s = some (y, m) →
      (dateSkip cy cm mc.release_date = true ↔
        ((cy : Int) < y ∨ (y = (cy : Int) ∧ (cm : Int) < m)))) := by
  constructor
  · intro h
    simp [movieQualifies, h]
  · intro s y m hrd hym
    have hne : (s == "") = false := by
      rcases hbe : (s == "") with _ | _
      · rfl
      · rw [beq_iff_eq] at hbe
        subst hbe
        simp [dateYM, pyInt, takeStr, trimStr] at hym
    rw [hrd]
    simp only [dateSkip, hne, Bool.false_eq_true, if_false, hym]
    simp [Bool.or_eq_true, Bool.and_eq_true, decide_eq_true_eq, beq_iff_eq]

/-- Movie credit used for the C5 witness. -/
def c5wCredit : MovieCreditB :=
  { id := "m7", title := some "Spaceship", poster_path := none, popularity := 1,
    character := some "Hero", release_date := some "2027-01-01" }

/-- Witness for C5 (amended): a credit dated in a strictly later
year-month is rejected at execution (2026, 10). -/
theorem c5_future_date_rules_witness :
    movieQualifies 2026 10 "Aa" c5wCredit = false :=
  (c5_future_date_rules 2026 10 "Aa" c5wCredit).1 (by decide)

/-! ## Claim C3: path codec -/

/-- A materialized path node as produced by `find_paths_by_difficulty`:
an actor record (id, name, profile image) or a movie/TV record
(id, title, poster image).  Optional strings model Python `None`. -/
inductive PathItem where
  | actorItem (id : String) (name : String) (profile_path : Option String)
  | movieItem (id : String) (title : Option String) (poster_path : Option String)
deriving DecidableEq

/-- A minimal-field node record as written by `compress_path`: `t` is
`'a'` or `'m'`, `i` the id, `n` the name or title, and `p` is present
only when the image path is truthy. -/
structure CompNode where
  t : Char
  i : String
  n : Option String
  p : Option String
deriving DecidableEq

/-- Python truthiness of an optional string (`None` and `""` are falsy). -/
def truthy (o : Option String) : Bool :=
  match o with
  | none => false
  | some s => !(s == "")

/-- Keep an optional string only when truthy, modelling the conditional
`compressed['p'] = item[...]` assignment in `compress_path`. -/
def keepTruthy (o : Option String) : Option String :=
  if truthy o then o else none

/-- The per-node minimization of `compress_path`.  The subsequent
`json.dumps` + `gzip.compress` layer and its inverse are external
lossless codecs, modelled as the identity on the record list. -/
def compressNode (item : PathItem) : CompNode :=
  match item with
  | .actorItem id name pp => ⟨'a', id, some name, keepTruthy pp⟩
  | .movieItem id title poster => ⟨'m', id, title, keepTruthy poster⟩

/-- `compress_path`: node minimization over the whole path. -/
def compress_path (path : List PathItem) : List CompNode :=
  path.map compressNode

/-- Node kind tag of a decoded record. -/
inductive NodeKind where
  | actorKind
  | movieKind
deriving DecidableEq

/-- Modelled from the spec: the decoder reads each stored record back to a
`(type, id, name, image)` tuple, mapping `'a'` to the actor kind and
anything else to the movie kind (as the consumer in `database_gui.py`
does on the `t` field), and treating an absent image key and an empty
string as equivalent (image defaults to `""`). -/
def decodeNode (c : CompNode) : NodeKind × String × Option String × String :=
  (if c.t == 'a' then .actorKind else .movieKind, c.i, c.n, c.p.getD "")

/-- The `(type, id, name, image)` tuple of an original node, with the
image normalized under the claim's absent-key / empty-string equivalence. -/
def nodeTuple (item : PathItem) : NodeKind × String × Option String × String :=
  match item with
  | .actorItem id name pp => (.actorKind, id, some name, pp.getD "")
  | .movieItem id title poster => (.movieKind, id, title, poster.getD "")

/-- C3: decoding the compressed form of any materialized path reproduces
the same ordered sequence of `(type, id, name, image)` tuples, with an
absent image and an empty-string image identified.  This holds for paths
of every length, in particular 0 through 8 edges. -/
theorem keepTruthy_getD (o : Option String) :
    (keepTruthy o).getD "" = o.getD "" := by
  match o with
  | none => rfl
  | some s =>
    by_cases hs : (s == "") = true
    · rw [beq_iff_eq] at hs
      subst hs
      rfl
    · simp [keepTruthy, truthy, hs]

theorem c3_path_codec_roundtrip (path : List PathItem) :
    (compress_path path).map decodeNode = path.map nodeTuple := by
  unfold compress_path
  rw [List.map_map]
  apply List.map_congr_left
  intro item _
  match item with
  | .actorItem id name pp =>
    simp [compressNode, decodeNode, nodeTuple, keepTruthy_getD]
  | .movieItem id title poster =>
    simp [compressNode, decodeNode, nodeTuple, keepTruthy_getD]

/-! ## update_actor_data.py: popularity metrics -/

/-- A movie credit as returned by the credits endpoint. -/
structure ApiMovieCredit where
  id : Nat
  release_date : Option String
  popularity : ℚ
deriving DecidableEq

/-- A TV credit as returned by the credits endpoint. -/
structure ApiTvCredit where
  id : Nat
  first_air_date : Option String
  popularity : ℚ
deriving DecidableEq

/-- The per-credit year extraction of `calculate_years_active`: a date
string of at least four characters whose leading four characters parse
as an integer in [1900, 2030]. -/
def validYear (s : Option String) : Option Int :=
  match s with
  | none => none
  | some str =>
    if str == "" then none
    else if 4 ≤ strLen str then
      match pyInt (takeStr str 4) with
      | some y => if 1900 ≤ y ∧ y ≤ 2030 then some y else none
      | none => none
    else none

/-- The `all_dates` list collected by `calculate_years_active`. -/
def validYears (mcs : List ApiMovieCredit) (tvs : List ApiTvCredit) : List Int :=
  mcs.filterMap (fun m => validYear m.release_date)
    ++ tvs.filterMap (fun t => validYear t.first_air_date)

/-- `calculate_years_active`: span between the earliest and latest valid
credit years, at least 1, capped at 60; 1 when no valid dates exist. -/
def calculate_years_active (mcs : List ApiMovieCredit) (tvs : List ApiTvCredit) :
    Int :=
  match validYears mcs tvs with
  | [] => 1
  | h :: t =>
    let earliest := t.foldl min h
    let latest := t.foldl max h
    min (max 1 (latest - earliest + 1)) 60

/-- C7: `calculate_years_active` is always in [1, 60]; it returns exactly
1 when no valid-dated credit exists, and otherwise returns
`max(1, latest - earliest + 1)` clamped at 60, where latest/earliest
range over the valid credit years. -/
theorem c7_years_active (mcs : List ApiMovieCredit) (tvs : List ApiTvCredit) :
    (1 ≤ calculate_years_active mcs tvs ∧ calculate_years_active mcs tvs ≤ 60) ∧
    (validYears mcs tvs = [] → calculate_years_active mcs tvs = 1) ∧
    (∀ M m : Int, (validYears mcs tvs).max? = some M →
      (validYears mcs tvs).min? = some m →
      calculate_years_active mcs tvs = min (max 1 (M - m + 1)) 60) := by
  rcases h : validYears mcs tvs with _ | ⟨hd, tl⟩
  · have h1 : calculate_years_active mcs tvs = 1 := by
      unfold calculate_years_active
      rw [h]
    refine ⟨?_, fun _ => h1, fun M m hM hm => ?_⟩
    · rw [h1]
      omega
    · simp [List.max?] at hM
  · have hval : calculate_years_active mcs tvs =
        min (max 1 (tl.foldl max hd - tl.foldl min hd + 1)) 60 := by
      unfold calculate_years_active
      rw [h]
    refine ⟨?_, fun hnil => ?_, fun M m hM hm => ?_⟩
    · rw [hval]
      omega
    · exact absurd hnil (List.cons_ne_nil hd tl)
    · simp only [List.max?, List.min?, Option.some.injEq] at hM hm
      rw [hval, ← hM, ← hm]

/-- Movie credits used for the C7 witness. -/
def c7Movies : List ApiMovieCredit :=
  [{ id := 1, release_date := some "2000-01-01", popularity := 5 }]

/-- TV credits used for the C7 witness. -/
def c7Tvs : List ApiTvCredit :=
  [{ id := 2, first_air_date := some "2015-06-01", popularity := 5 }]

/-- Witness for C7 at a concrete input: years 2000 and 2015 give a span
of 16 years. -/
theorem c7_years_active_witness :
    calculate_years_active c7Movies c7Tvs = 16 := by
  have hspan := (c7_years_active c7Movies c7Tvs).2.2 2015 2000 (by decide) (by decide)
  rw [hspan]
  decide

/-- `calculate_custom_popularity`: the enhanced 0-100 scoring formula.
The Wikipedia page-view, Wikipedia importance and awards metrics are
fetched externally when an actor name is given (0 otherwise); they are
modelled as explicit parameters.  Python float literals `0.30` etc. are
the exact rationals `30/100` etc. -/
def calculate_custom_popularity (tmdb_popularity num_credits years_active
    avg_credit_popularity wiki_pageviews wiki_importance awards_score : ℚ) : ℚ :=
  let longevity_factor := min (years_active / 15) 1
  let credits_factor := min (num_credits / 25) 1
  let normalized_tmdb := min (tmdb_popularity / 30) 1 * 100
  let normalized_credits := min avg_credit_popularity 25 * 4
  let wiki_views_scaled := wiki_pageviews * 100
  let wiki_imp_scaled := wiki_importance * 100
  let awards_scaled := awards_score * 100
  let credits_scaled := credits_factor * 100
  let longevity_scaled := longevity_factor * 100
  normalized_tmdb * (30 / 100) + normalized_credits * (25 / 100) +
    wiki_views_scaled * (20 / 100) + wiki_imp_scaled * (15 / 100) +
    awards_scaled * (7 / 100) + credits_scaled * (2 / 100) +
    longevity_scaled * (1 / 100)

/-- C8: the popularity score is monotonically non-decreasing in raw TMDB
popularity, credit count, years active and average credit popularity
(each over non-negative values with the other inputs fixed), and is
non-negative for all non-negative inputs.  Over the rational model no
NaN exists: every division is by a nonzero constant, so the function is
total. -/
theorem c8_popularity_monotone_nonneg :
    (∀ p p' n y a w1 w2 w3 : ℚ, 0 ≤ p → p ≤ p' →
      calculate_custom_popularity p n y a w1 w2 w3 ≤
        calculate_custom_popularity p' n y a w1 w2 w3) ∧
    (∀ p n n' y a w1 w2 w3 : ℚ, 0 ≤ n → n ≤ n' →
      calculate_custom_popularity p n y a w1 w2 w3 ≤
        calculate_custom_popularity p n' y a w1 w2 w3) ∧
    (∀ p n y y' a w1 w2 w3 : ℚ, 0 ≤ y → y ≤ y' →
      calculate_custom_popularity p n y a w1 w2 w3 ≤
        calculate_custom_popularity p n y' a w1 w2 w3) ∧
    (∀ p n y a a' w1 w2 w3 : ℚ, 0 ≤ a → a ≤ a' →
      calculate_custom_popularity p n y a w1 w2 w3 ≤
        calculate_custom_popularity p n y a' w1 w2 w3) ∧
    (∀ p n y a w1 w2 w3 : ℚ, 0 ≤ p → 0 ≤ n → 0 ≤ y → 0 ≤ a →
      0 ≤ w1 → 0 ≤ w2 → 0 ≤ w3 →
      0 ≤ calculate_custom_popularity p n y a w1 w2 w3) := by
  refine ⟨?_, ?_, ?_, ?_, ?_⟩
  · intro p p' n y a w1 w2 w3 _ hle
    simp only [calculate_custom_popularity]
    gcongr
  · intro p n n' y a w1 w2 w3 _ hle
    simp only [calculate_custom_popularity]
    gcongr
  · intro p n y y' a w1 w2 w3 _ hle
    simp only [calculate_custom_popularity]
    gcongr
  · intro p n y a a' w1 w2 w3 _ hle
    simp only [calculate_custom_popularity]
    gcongr
  · intro p n y a w1 w2 w3 hp hn hy ha h1 h2 h3
    simp only [calculate_custom_popularity]
    have hmin : ∀ x : ℚ, 0 ≤ x → 0 ≤ min x 1 := fun x hx => le_min hx (by norm_num)
    refine add_nonneg (add_nonneg (add_nonneg (add_nonneg (add_nonneg (add_nonneg
      ?_ ?_) ?_) ?_) ?_) ?_) ?_
    · exact mul_nonneg (mul_nonneg (hmin _ (by positivity)) (by norm_num)) (by norm_num)
    · exact mul_nonneg (mul_nonneg (le_min ha (by norm_num)) (by norm_num)) (by norm_num)
    · exact mul_nonneg (mul_nonneg h1 (by norm_num)) (by norm_num)
    · exact mul_nonneg (mul_nonneg h2 (by norm_num)) (by norm_num)
    · exact mul_nonneg (mul_nonneg h3 (by norm_num)) (by norm_num)
    · exact mul_nonneg (mul_nonneg (hmin _ (by positivity)) (by norm_num)) (by norm_num)
    · exact mul_nonneg (mul_nonneg (hmin _ (by positivity)) (by norm_num)) (by norm_num)

/-- Witness for C8 at concrete inputs: the score at TMDB popularity 15 is
at most the score at 30, and the score at a zero profile is
non-negative. -/
theorem c8_popularity_monotone_nonneg_witness :
    calculate_custom_popularity 15 10 5 10 0 0 0 ≤
        calculate_custom_popularity 30 10 5 10 0 0 0 ∧
    0 ≤ calculate_custom_popularity 0 0 0 0 0 0 0 :=
  ⟨c8_popularity_monotone_nonneg.1 15 30 10 5 10 0 0 0 (by norm_num) (by norm_num),
   c8_popularity_monotone_nonneg.2.2.2.2 0 0 0 0 0 0 0 le_rfl le_rfl le_rfl le_rfl
     le_rfl le_rfl le_rfl⟩

/-! ## update_actor_data.py: region assignment -/

/-- The actor fields read by `assign_actor_to_regions`. -/
structure ApiActor where
  popularity : ℚ
deriving DecidableEq

/-- The detail fields read by `assign_actor_to_regions`. -/
structure ActorDetails where
  place_of_birth : Option String
deriving DecidableEq

/-- `production_countries[code] = production_countries.get(code, 0) + 1`. -/
def tallyAdd (l : List (String × Nat)) (code : String) : List (String × Nat) :=
  if l.any (fun e => e.1 == code) then
    l.map (fun e => if e.1 == code then (e.1, e.2 + 1) else e)
  else l ++ [(code, 1)]

/-- Birth-place markers mapped to the UK region. -/
def ukMarkers : List String := ["United Kingdom", "England", "Scotland", "Wales"]

/-- Major-market regions force-assigned for very popular actors. -/
def majorRegions : List String := ["US", "UK", "CA", "AU", "FR", "DE"]

/-- `assign_actor_to_regions`: always starts from `["GLOBAL"]`, adds a
birth-country tag, country tags with three or more fetched productions,
and the major markets when popularity exceeds 25.  The per-movie
production-country fetch (an HTTP call) is the `fetchPC` parameter;
`none` models a failed request or a response without the
`production_countries` key.  `tv_credits` is accepted but unused, as in
the source. -/
def assign_actor_to_regions (fetchPC : Nat → Option (List String))
    (actor : ApiActor) (movie_credits : List ApiMovieCredit)
    (tv_credits : List ApiTvCredit) (details_data : Option ActorDetails) :
    List String × List (String × ℚ) :=
  let st0 : List String × List (String × ℚ) :=
    (["GLOBAL"], [("GLOBAL", actor.popularity)])
  let st1 :=
    match details_data with
    | none => st0
    | some d =>
      match d.place_of_birth with
      | none => st0
      | some bp =>
        if bp == "" then st0
        else if ukMarkers.any (fun c => strHasSub bp c) then
          (st0.1 ++ ["UK"], st0.2 ++ [("UK", actor.popularity * (12 / 10))])
        else if strHasSub bp "United States" then
          (st0.1 ++ ["US"], st0.2 ++ [("US", actor.popularity * (12 / 10))])
        else st0
  let production_countries := movie_credits.foldl (fun acc mv =>
      match fetchPC mv.id with
      | some codes => codes.foldl tallyAdd acc
      | none => acc) []
  let st2 := production_countries.foldl (fun st entry =>
      if 3 ≤ entry.2 && !(st.1.contains entry.1) then
        (st.1 ++ [entry.1], st.2 ++ [(entry.1, actor.popularity)])
      else st) st1
  majorRegions.foldl (fun st region =>
      if decide (25 < actor.popularity) && !(st.1.contains region) then
        (st.1 ++ [region], st.2 ++ [(region, actor.popularity)])
      else st) st2

/-- A fold whose step never removes tags keeps every tag. -/
theorem foldl_keeps_mem {α β : Type}
    (f : (List String × β) → α → (List String × β))
    (hf : ∀ p x s, s ∈ p.1 → s ∈ (f p x).1) :
    ∀ (l : List α) (p : List String × β) (s : String),
      s ∈ p.1 → s ∈ (l.foldl f p).1
  | [], _, _, h => h
  | x :: t, p, s, h => foldl_keeps_mem f hf t (f p x) s (hf p x s h)

/-- C9 counterexample: an actor with popularity 0, no details and no
credits is assigned exactly `["GLOBAL"]` — there is no `other` fallback
tag, and `GLOBAL` is present even though the popularity 0 is far below
the GLOBAL threshold 25 and no other rule applies. -/
theorem c9_counterexample :
    assign_actor_to_regions (fun _ => none) ⟨0⟩ [] [] none =
      (["GLOBAL"], [("GLOBAL", 0)]) ∧
    "other" ∉ (assign_actor_to_regions (fun _ => none) ⟨0⟩ [] [] none).1 ∧
    "OTHER" ∉ (assign_actor_to_regions (fun _ => none) ⟨0⟩ [] [] none).1 ∧
    (0 : ℚ) < 25 := by
  refine ⟨by decide, by decide, by decide, by norm_num⟩

/-- C9 (amended): region assignment always returns a non-empty tag list,
because `GLOBAL` is assigned unconditionally (regardless of popularity);
the fallback is `GLOBAL` itself, not an `other` tag. -/
theorem c9_regions_nonempty (fetchPC : Nat → Option (List String))
    (actor : ApiActor) (movie_credits : List ApiMovieCredit)
    (tv_credits : List ApiTvCredit) (details_data : Option ActorDetails) :
    "GLOBAL" ∈
        (assign_actor_to_regions fetchPC actor movie_credits tv_credits
          details_data).1 ∧
    (assign_actor_to_regions fetchPC actor movie_credits tv_credits
        details_data).1 ≠ [] := by
  have hmem : "GLOBAL" ∈
      (assign_actor_to_regions fetchPC actor movie_credits tv_credits
        details_data).1 := by
    simp only [assign_actor_to_regions]
    apply foldl_keeps_mem
    · intro p x s h
      dsimp only
      split
      · simp [h]
      · exact h
    apply foldl_keeps_mem
    · intro p x s h
      dsimp only
      split
      · simp [h]
      · exact h
    rcases details_data with _ | d
    · simp
    rcases hbp : d.place_of_birth with _ | bp
    · simp [hbp]
    simp only [hbp]
    split
    · simp
    · split
      · simp
      · split <;> simp
  exact ⟨hmem, List.ne_nil_of_mem hmem⟩

/-! ## update_actor_data.py: API retry loop -/

/-- The observable outcome of one HTTP attempt in `make_api_request`:
a response with a status code and body, or a raised connection/timeout
exception. -/
inductive ApiOutcome where
  | response (status_code : Nat) (body : String)
  | exc
deriving DecidableEq

/-- The retry loop of `make_api_request`.  `resp i` is the outcome of the
attempt made with the retry counter at `i`; besides the Python return
value the model also counts attempts made and sleeps taken.  The fuel is
`max_retries - retries`, matching the `while retries < max_retries`
loop. -/
def apiLoop (resp : Nat → ApiOutcome) :
    Nat → Nat → Nat → Nat → Option String × Nat × Nat
  | 0, _, attempts, sleeps => (none, attempts, sleeps)
  | fuel + 1, retries, attempts, sleeps =>
    match resp retries with
    | .response code body =>
      if code == 429 then apiLoop resp fuel (retries + 1) (attempts + 1) (sleeps + 1)
      else if code == 200 then (some body, attempts + 1, sleeps)
      else (none, attempts + 1, sleeps)
    | .exc => apiLoop resp fuel (retries + 1) (attempts + 1) (sleeps + 1)

/-- `make_api_request`, returning `(result, attempts made, sleeps taken)`. -/
def make_api_request (resp : Nat → ApiOutcome) (max_retries : Nat) :
    Option String × Nat × Nat :=
  apiLoop resp max_retries 0 0 0

/-- An outcome the loop retries: a 429 response or a raised exception. -/
def retriable (o : ApiOutcome) : Prop :=
  o = .exc ∨ ∃ b, o = .response 429 b

theorem apiLoop_all_retriable (resp : Nat → ApiOutcome) :
    ∀ (fuel retries attempts sleeps : Nat),
      (∀ i, retries ≤ i → i < retries + fuel → retriable (resp i)) →
      apiLoop resp fuel retries attempts sleeps =
        (none, attempts + fuel, sleeps + fuel)
  | 0, retries, attempts, sleeps, _ => rfl
  | fuel + 1, retries, attempts, sleeps, h => by
    have h0 : retriable (resp retries) := h retries le_rfl (by omega)
    have hrec := apiLoop_all_retriable resp fuel (retries + 1) (attempts + 1)
      (sleeps + 1) (fun i h1 h2 => h i (by omega) (by omega))
    have e1 : attempts + 1 + fuel = attempts + (fuel + 1) := by omega
    have e2 : sleeps + 1 + fuel = sleeps + (fuel + 1) := by omega
    rcases h0 with h0 | ⟨b, h0⟩
    · show apiLoop resp (fuel + 1) retries attempts sleeps = _
      unfold apiLoop
      rw [h0]
      dsimp only
      rw [hrec, e1, e2]
    · show apiLoop resp (fuel + 1) retries attempts sleeps = _
      unfold apiLoop
      rw [h0]
      dsimp only
      rw [if_pos (by decide : ((429 : Nat) == 429) = true)]
      rw [hrec, e1, e2]

/-- C10: a response whose status is neither 200 nor 429 makes
`make_api_request` return `None` after exactly one attempt and zero
sleeps; when every attempt is retriable (a 429 or a raised
connection/timeout error), the function makes exactly `max_retries`
attempts and then returns `None`. -/
theorem c10_api_retry_policy (resp : Nat → ApiOutcome) (max_retries : Nat) :
    (∀ code body, 0 < max_retries → resp 0 = .response code body →
      code ≠ 200 → code ≠ 429 →
      make_api_request resp max_retries = (none, 1, 0)) ∧
    ((∀ i, i < max_retries → retriable (resp i)) →
      make_api_request resp max_retries = (none, max_retries, max_retries)) := by
  constructor
  · intro code body hpos hresp h200 h429
    match max_retries, hpos with
    | fuel + 1, _ =>
      unfold make_api_request apiLoop
      rw [hresp]
      have hb429 : (code == 429) = false := by
        rw [beq_eq_false_iff_ne]
        exact h429
      have hb200 : (code == 200) = false := by
        rw [beq_eq_false_iff_ne]
        exact h200
      dsimp only
      rw [hb429, hb200]
      simp
  · intro h
    have := apiLoop_all_retriable resp max_retries 0 0 0
      (fun i h1 h2 => h i (by omega))
    simpa [make_api_request] using this

/-- Attempt sequence used for the C10 witness: a single 500 response. -/
def c10Resp500 : Nat → ApiOutcome := fun _ => .response 500 ""

/-- Attempt sequence used for the C10 witness: always an exception. -/
def c10RespExc : Nat → ApiOutcome := fun _ => .exc

/-- Witness for C10 at concrete inputs: a 500 response returns `None`
after one attempt with no sleep; five consecutive exceptions exhaust the
default five retries. -/
theorem c10_api_retry_policy_witness :
    make_api_request c10Resp500 5 = (none, 1, 0) ∧
    make_api_request c10RespExc 5 = (none, 5, 5) :=
  ⟨(c10_api_retry_policy c10Resp500 5).1 500 "" (by omega) rfl
      (by omega) (by omega),
   (c10_api_retry_policy c10RespExc 5).2 (fun i _ => Or.inl rfl)⟩

/-! ## build_actor_map.py: find_paths_by_difficulty -/

/-- One difficulty entry of `DIFFICULTY_CONFIG`. -/
structure TierConfig where
  min_connections : Nat
  max_connections : Nat
  count : Nat
deriving DecidableEq

/-- One accepted path record appended to `paths_by_difficulty`. -/
structure PathRecord where
  start_id : String
  target_id : String
  connection_length : Nat
  path : List PathItem
deriving DecidableEq

/-- The loop state of `find_paths_by_difficulty`: the per-difficulty
result lists, the shared `processed_pairs` set, a log of the pairs on
which `nx.shortest_path` was actually invoked (instrumentation for the
no-recomputation property), and the break flag of the active tier. -/
structure FPState where
  results : List (String × List PathRecord)
  processed : List (String × String)
  computed : List (String × String)
  tierDone : Bool
deriving DecidableEq

/-- `actors[id]` as an optional lookup. -/
def lookupActor (actors : List (String × ActorB)) (id : String) : Option ActorB :=
  (actors.find? (fun e => e.1 == id)).map (fun e => e.2)

/-- `actors[id]` with a default record; in the runs modelled here every
path node is a key of `actors`. -/
def getActor (actors : List (String × ActorB)) (id : String) : ActorB :=
  (lookupActor actors id).getD ⟨"", 0, none, [], []⟩

/-- The credit-data lookup of the path materialization: search the
actor's movie credits for the credit id, then the TV credits. -/
def findCreditData (a : ActorB) (cid : String) :
    Option (Option String × Option String) :=
  match a.movie_credits.find? (fun c => c.id == cid) with
  | some m => some (m.title, m.poster_path)
  | none =>
    match a.tv_credits.find? (fun c => c.id == cid) with
    | some t => some (t.title, t.poster_path)
    | none => none

/-- One iteration of the materialization loop: emit the leading actor on
the first step, then the connecting credit (`G[a1][a2]['credits'][0]`,
with defaults standing in for the dictionary accesses that cannot fail
on an `nx` path) and the next actor. -/
def materializeStep (G : GraphB) (actors : List (String × ActorB))
    (p : List String) (acc : List PathItem) (i : Nat) : List PathItem :=
  let a1 := p.getD i ""
  let a2 := p.getD (i + 1) ""
  let acc := if i == 0 then
      acc ++ [PathItem.actorItem a1 (getActor actors a1).name
                (getActor actors a1).profile_path]
    else acc
  let cid := ((getEdge G.edges a1 a2).getD ⟨1, []⟩).credits.headD ""
  let md := findCreditData (getActor actors a1) cid
  let title := match md with | some t => t.1 | none => some "Unknown"
  let poster := match md with | some t => t.2 | none => none
  acc ++ [PathItem.movieItem cid title poster,
          PathItem.actorItem a2 (getActor actors a2).name
            (getActor actors a2).profile_path]

/-- Materialize a shortest path of actor ids into the alternating
actor/credit node list. -/
def materializePath (G : GraphB) (actors : List (String × ActorB))
    (p : List String) : List PathItem :=
  (List.range (p.length - 1)).foldl (materializeStep G actors p) []

/-- `paths_by_difficulty[d]` (empty when the key is absent). -/
def getFrom (l : List (String × List PathRecord)) (d : String) :
    List PathRecord :=
  ((l.find? (fun e => e.1 == d)).map (fun e => e.2)).getD []

/-- `paths_by_difficulty[d].append(record)`. -/
def updateKey (l : List (String × List PathRecord)) (d : String)
    (r : PathRecord) : List (String × List PathRecord) :=
  l.map (fun e => if e.1 == d then (e.1, e.2 ++ [r]) else e)

/-- Lexicographic code-point comparison of character lists, modelling
Python string comparison. -/
def lexLt : List Char → List Char → Bool
  | [], [] => false
  | [], _ :: _ => true
  | _ :: _, [] => false
  | a :: as, b :: bs =>
    if a.toNat < b.toNat then true
    else if b.toNat < a.toNat then false
    else lexLt as bs

/-- Python `s < t` on strings. -/
def strLtB (s t : String) : Bool :=
  lexLt s.data t.data

/-- `tuple(sorted([start, target]))`. -/
def pairKey (s t : String) : String × String :=
  if strLtB s t then (s, t) else (t, s)

/-- The body of the inner target loop: skip when the tier already broke
or the pair was processed; otherwise mark the pair processed, run the
shortest-path search (the `sp` parameter models `nx.shortest_path`,
`none` modelling `NetworkXNoPath`), and append the materialized path
when its edge count lies within the tier's bounds, breaking once the
tier's target count is reached. -/
def processTarget (sp : String → String → Option (List String)) (G : GraphB)
    (actors : List (String × ActorB)) (cfg : TierConfig) (d : String)
    (start : String) (st : FPState) (target : String) : FPState :=
  if st.tierDone then st
  else if pairKey start target ∈ st.processed then st
  else
    let st1 : FPState :=
      { st with processed := st.processed ++ [pairKey start target],
                computed := st.computed ++ [pairKey start target] }
    match sp start target with
    | none => st1
    | some p =>
      let len := p.length - 1
      if cfg.min_connections ≤ len ∧ len ≤ cfg.max_connections then
        let record : PathRecord :=
          { start_id := start, target_id := target, connection_length := len,
            path := materializePath G actors p }
        let st2 : FPState := { st1 with results := updateKey st1.results d record }
        if cfg.count ≤ (getFrom st2.results d).length then
          { st2 with tierDone := true }
        else st2
      else st1

/-- The body of the start-actor loop: run the sampled targets (the
`sample` parameter models the `np.random.choice` draw for a difficulty
and start actor), then break the tier once its count is met. -/
def processStart (sp : String → String → Option (List String))
    (sample : String → String → List String) (G : GraphB)
    (actors : List (String × ActorB)) (cfg : TierConfig) (d : String)
    (st : FPState) (start : String) : FPState :=
  if st.tierDone then st
  else
    let st1 := (sample d start).foldl (processTarget sp G actors cfg d start) st
    if cfg.count ≤ (getFrom st1.results d).length then
      { st1 with tierDone := true }
    else st1

/-- One difficulty tier: choose the pool (`hard` uses the top-10% pool)
and iterate its start actors with a fresh break flag. -/
def processTier (sp : String → String → Option (List String))
    (sample : String → String → List String) (G : GraphB)
    (actors : List (String × ActorB)) (enPool hardPool : List String)
    (st : FPState) (entry : String × TierConfig) : FPState :=
  let pool := if entry.1 == "hard" then hardPool else enPool
  pool.foldl (processStart sp sample G actors entry.2 entry.1)
    { st with tierDone := false }

/-- Stable insertion: place `x` before the first element it should
precede. -/
def orderedInsertBy {α : Type} (le : α → α → Bool) (x : α) : List α → List α
  | [] => [x]
  | y :: t => if le x y then x :: y :: t else y :: orderedInsertBy le x t

/-- Stable sort by a total comparator, modelling Python's stable
`list.sort`. -/
def sortBy {α : Type} (le : α → α → Bool) : List α → List α
  | [] => []
  | x :: t => orderedInsertBy le x (sortBy le t)

/-- `find_paths_by_difficulty`: rank the graph's actors by popularity
(descending, stable), slice the top-20% and top-10% pools (the float
truncation `int(len * 0.2)` is the rational floor `len / 5`), and run
the three nested sampling loops. -/
def find_paths_by_difficulty (sp : String → String → Option (List String))
    (sample : String → String → List String) (G : GraphB)
    (actors : List (String × ActorB))
    (difficulty_config : List (String × TierConfig)) : FPState :=
  let actor_popularity := G.nodes.filterMap
    (fun id => (lookupActor actors id).map (fun a => (id, a.popularity)))
  let sorted := sortBy (fun x y => decide (y.2 ≤ x.2)) actor_popularity
  let easy_normal_popular :=
    (sorted.take (max 1 (actor_popularity.length / 5))).map (fun x => x.1)
  let hard_popular :=
    (sorted.take (max 1 (actor_popularity.length / 10))).map (fun x => x.1)
  difficulty_config.foldl
    (processTier sp sample G actors easy_normal_popular hard_popular)
    { results := [("easy", []), ("normal", []), ("hard", [])],
      processed := [], computed := [], tierDone := false }

/-! ## Claim C6: tier bounds and pair deduplication -/

/-- Deduplication invariant: the shortest-path invocation log has no
repeats, and every logged pair is in the processed set. -/
def DInv (st : FPState) : Prop :=
  st.computed.Nodup ∧ ∀ k ∈ st.computed, k ∈ st.processed

/-- Tier-bounds invariant relative to a difficulty configuration. -/
def BInv (config : List (String × TierConfig)) (st : FPState) : Prop :=
  ∀ d cfg, (d, cfg) ∈ config → ∀ r ∈ getFrom st.results d,
    cfg.min_connections ≤ r.connection_length ∧
      r.connection_length ≤ cfg.max_connections

/-- With duplicate-free keys, an association list determines values. -/
theorem nodupKeys_eq {α β : Type} [DecidableEq α] :
    ∀ (l : List (α × β)), (l.map Prod.fst).Nodup →
      ∀ {d : α} {c1 c2 : β}, (d, c1) ∈ l → (d, c2) ∈ l → c1 = c2
  | [], _, _, _, _, h1, _ => absurd h1 (List.not_mem_nil _)
  | e :: t, hnd, d, c1, c2, h1, h2 => by
    rw [List.map_cons, List.nodup_cons] at hnd
    rcases List.mem_cons.mp h1 with h1 | h1 <;>
      rcases List.mem_cons.mp h2 with h2 | h2
    · exact (Prod.ext_iff.mp (h1.trans h2.symm)).2
    · exfalso
      apply hnd.1
      have he : e.1 = d := by rw [← h1]
      rw [he]
      exact List.mem_map.mpr ⟨(d, c2), h2, rfl⟩
    · exfalso
      apply hnd.1
      have he : e.1 = d := by rw [← h2]
      rw [he]
      exact List.mem_map.mpr ⟨(d, c1), h1, rfl⟩
    · exact nodupKeys_eq t hnd.2 h1 h2

theorem getFrom_cons_pos {e : String × List PathRecord}
    {t : List (String × List PathRecord)} {d : String}
    (h : (e.1 == d) = true) : getFrom (e :: t) d = e.2 := by
  simp [getFrom, List.find?_cons, h]

theorem getFrom_cons_neg {e : String × List PathRecord}
    {t : List (String × List PathRecord)} {d : String}
    (h : (e.1 == d) = false) : getFrom (e :: t) d = getFrom t d := by
  simp [getFrom, List.find?_cons, h]

theorem updateKey_cons (e : String × List PathRecord)
    (t : List (String × List PathRecord)) (d0 : String) (r : PathRecord) :
    updateKey (e :: t) d0 r =
      (if e.1 == d0 then (e.1, e.2 ++ [r]) else e) :: updateKey t d0 r := rfl

/-- Membership in a bucket after an append: either an old record of the
same bucket, or the new record in the updated bucket. -/
theorem mem_getFrom_updateKey {d0 d : String} {rec r : PathRecord} :
    ∀ (l : List (String × List PathRecord)),
      r ∈ getFrom (updateKey l d0 rec) d → r ∈ getFrom l d ∨ (d = d0 ∧ r = rec)
  | [], h => by simp [getFrom, updateKey] at h
  | e :: t, h => by
    rw [updateKey_cons] at h
    by_cases he0 : (e.1 == d0) = true
    · rw [if_pos he0] at h
      by_cases hed : (e.1 == d) = true
      · rw [getFrom_cons_pos (show ((e.1, e.2 ++ [rec]).1 == d) = true from hed)] at h
        rcases List.mem_append.mp h with h | h
        · left
          rw [getFrom_cons_pos hed]
          exact h
        · right
          simp at h
          rw [beq_iff_eq] at he0 hed
          exact ⟨hed ▸ he0 ▸ rfl, h⟩
      · rw [Bool.not_eq_true] at hed
        rw [getFrom_cons_neg (show ((e.1, e.2 ++ [rec]).1 == d) = false from hed)] at h
        rw [getFrom_cons_neg hed]
        exact mem_getFrom_updateKey t h
    · rw [Bool.not_eq_true] at he0
      rw [if_neg (by simp [he0])] at h
      by_cases hed : (e.1 == d) = true
      · rw [getFrom_cons_pos hed] at h
        left
        rw [getFrom_cons_pos hed]
        exact h
      · rw [Bool.not_eq_true] at hed
        rw [getFrom_cons_neg hed] at h
        rw [getFrom_cons_neg hed]
        exact mem_getFrom_updateKey t h

/-- A fold preserves any property its step preserves. -/
theorem foldl_pres {σ α : Type} (f : σ → α → σ) (P : σ → Prop)
    (hf : ∀ s x, P s → P (f s x)) :
    ∀ (l : List α) (s : σ), P s → P (l.foldl f s)
  | [], _, h => h
  | x :: t, s, h => foldl_pres f P hf t (f s x) (hf s x h)

/-- A fold over elements of a fixed carrier preserves any property its
step preserves on carrier elements. -/
theorem foldl_pres_mem {σ α : Type} (f : σ → α → σ) (P : σ → Prop)
    (whole : List α) (hf : ∀ s x, x ∈ whole → P s → P (f s x)) :
    ∀ (l : List α), (∀ x ∈ l, x ∈ whole) → ∀ (s : σ), P s → P (l.foldl f s)
  | [], _, _, h => h
  | x :: t, hsub, s, h =>
    foldl_pres_mem f P whole hf t
      (fun y hy => hsub y (List.mem_cons_of_mem x hy)) (f s x)
      (hf s x (hsub x (List.mem_cons_self x t)) h)

theorem DInv_processTarget (sp : String → String → Option (List String))
    (G : GraphB) (actors : List (String × ActorB)) (cfg : TierConfig)
    (d start : String) (st : FPState) (target : String) (h : DInv st) :
    DInv (processTarget sp G actors cfg d start st target) := by
  unfold processTarget
  split
  · exact h
  split
  · exact h
  rename_i hdone hmem
  obtain ⟨h1, h2⟩ := h
  have hnotc : pairKey start target ∉ st.computed := fun hc => hmem (h2 _ hc)
  have hD1 : (st.computed ++ [pairKey start target]).Nodup := by
    rw [List.nodup_append]
    refine ⟨h1, List.nodup_singleton _, ?_⟩
    intro x hx hx'
    simp at hx'
    subst hx'
    exact hnotc hx
  have hD2 : ∀ k ∈ st.computed ++ [pairKey start target],
      k ∈ st.processed ++ [pairKey start target] := by
    intro k hk
    rcases List.mem_append.mp hk with hk | hk
    · exact List.mem_append_left _ (h2 k hk)
    · exact List.mem_append_right _ hk
  cases sp start target with
  | none => exact ⟨hD1, hD2⟩
  | some p =>
    dsimp only
    split
    · split
      · exact ⟨hD1, hD2⟩
      · exact ⟨hD1, hD2⟩
    · exact ⟨hD1, hD2⟩

theorem DInv_processStart (sp : String → String → Option (List String))
    (sample : String → String → List String) (G : GraphB)
    (actors : List (String × ActorB)) (cfg : TierConfig) (d : String)
    (st : FPState) (start : String) (h : DInv st) :
    DInv (processStart sp sample G actors cfg d st start) := by
  unfold processStart
  split
  · exact h
  have hfold := foldl_pres (processTarget sp G actors cfg d start) DInv
    (fun s x hs => DInv_processTarget sp G actors cfg d start s x hs)
    (sample d start) st h
  dsimp only
  split
  · exact hfold
  · exact hfold

theorem DInv_processTier (sp : String → String → Option (List String))
    (sample : String → String → List String) (G : GraphB)
    (actors : List (String × ActorB)) (enPool hardPool : List String)
    (st : FPState) (entry : String × TierConfig) (h : DInv st) :
    DInv (processTier sp sample G actors enPool hardPool st entry) := by
  unfold processTier
  exact foldl_pres (processStart sp sample G actors entry.2 entry.1) DInv
    (fun s x hs => DInv_processStart sp sample G actors entry.2 entry.1 s x hs)
    _ { st with tierDone := false } h

theorem DInv_find_paths (sp : String → String → Option (List String))
    (sample : String → String → List String) (G : GraphB)
    (actors : List (String × ActorB))
    (config : List (String × TierConfig)) :
    DInv (find_paths_by_difficulty sp sample G actors config) := by
  simp only [find_paths_by_difficulty]
  apply foldl_pres _ DInv
  · intro s x hs
    exact DInv_processTier sp sample G actors _ _ s x hs
  · refine ⟨List.nodup_nil, ?_⟩
    intro k hk
    simp at hk

theorem BInv_updateKey (config : List (String × TierConfig))
    (hnd : (config.map Prod.fst).Nodup) {d0 : String} {cfg0 : TierConfig}
    (hin : (d0, cfg0) ∈ config) {res : List (String × List PathRecord)}
    (h : ∀ d cfg, (d, cfg) ∈ config → ∀ r ∈ getFrom res d,
      cfg.min_connections ≤ r.connection_length ∧
        r.connection_length ≤ cfg.max_connections)
    {rec : PathRecord}
    (hrec : cfg0.min_connections ≤ rec.connection_length ∧
      rec.connection_length ≤ cfg0.max_connections) :
    ∀ d cfg, (d, cfg) ∈ config → ∀ r ∈ getFrom (updateKey res d0 rec) d,
      cfg.min_connections ≤ r.connection_length ∧
        r.connection_length ≤ cfg.max_connections := by
  intro d cfg hdc r hr
  rcases mem_getFrom_updateKey res hr with hr | ⟨rfl, rfl⟩
  · exact h d cfg hdc r hr
  · have hcc : cfg = cfg0 := nodupKeys_eq config hnd hdc hin
    rw [hcc]
    exact hrec

theorem BInv_processTarget (config : List (String × TierConfig))
    (hnd : (config.map Prod.fst).Nodup) {d0 : String} {cfg0 : TierConfig}
    (hin : (d0, cfg0) ∈ config) (sp : String → String → Option (List String))
    (G : GraphB) (actors : List (String × ActorB)) (start : String)
    (st : FPState) (target : String) (h : BInv config st) :
    BInv config (processTarget sp G actors cfg0 d0 start st target) := by
  unfold processTarget
  split
  · exact h
  split
  · exact h
  cases sp start target with
  | none => exact h
  | some p =>
    dsimp only
    split
    · rename_i hlen
      split
      · exact BInv_updateKey config hnd hin h ⟨hlen.1, hlen.2⟩
      · exact BInv_updateKey config hnd hin h ⟨hlen.1, hlen.2⟩
    · exact h

theorem BInv_processStart (config : List (String × TierConfig))
    (hnd : (config.map Prod.fst).Nodup) {d0 : String} {cfg0 : TierConfig}
    (hin : (d0, cfg0) ∈ config) (sp : String → String → Option (List String))
    (sample : String → String → List String) (G : GraphB)
    (actors : List (String × ActorB)) (st : FPState) (start : String)
    (h : BInv config st) :
    BInv config (processStart sp sample G actors cfg0 d0 st start) := by
  unfold processStart
  split
  · exact h
  have hfold := foldl_pres (processTarget sp G actors cfg0 d0 start) (BInv config)
    (fun s x hs => BInv_processTarget config hnd hin sp G actors start s x hs)
    (sample d0 start) st h
  dsimp only
  split
  · exact hfold
  · exact hfold

theorem BInv_processTier (config : List (String × TierConfig))
    (hnd : (config.map Prod.fst).Nodup)
    (sp : String → String → Option (List String))
    (sample : String → String → List String) (G : GraphB)
    (actors : List (String × ActorB)) (enPool hardPool : List String)
    (st : FPState) (entry : String × TierConfig) (hin : entry ∈ config)
    (h : BInv config st) :
    BInv config (processTier sp sample G actors enPool hardPool st entry) := by
  unfold processTier
  have hin' : (entry.1, entry.2) ∈ config := by
    rw [Prod.mk.eta]
    exact hin
  exact foldl_pres (processStart sp sample G actors entry.2 entry.1) (BInv config)
    (fun s x hs => BInv_processStart config hnd hin' sp sample G actors s x hs)
    _ { st with tierDone := false } h

theorem getFrom_init (d : String) :
    getFrom [("easy", []), ("normal", []), ("hard", [])] d = [] := by
  by_cases h1 : (("easy" : String) == d) = true
  · exact getFrom_cons_pos h1
  · rw [Bool.not_eq_true] at h1
    rw [getFrom_cons_neg h1]
    by_cases h2 : (("normal" : String) == d) = true
    · exact getFrom_cons_pos h2
    · rw [Bool.not_eq_true] at h2
      rw [getFrom_cons_neg h2]
      by_cases h3 : (("hard" : String) == d) = true
      · exact getFrom_cons_pos h3
      · rw [Bool.not_eq_true] at h3
        rw [getFrom_cons_neg h3]
        rfl

/-- C6: in one run of `find_paths_by_difficulty` (over any shortest-path
oracle, any sampling draw and any duplicate-free difficulty
configuration), every accepted record of a tier satisfies that tier's
`[min, max]` connection-length bounds, and no unordered `(start, target)`
pair is shortest-path-computed more than once across all tiers. -/
theorem c6_tier_bounds_and_pair_dedup
    (sp : String → String → Option (List String))
    (sample : String → String → List String) (G : GraphB)
    (actors : List (String × ActorB)) (config : List (String × TierConfig))
    (hnd : (config.map Prod.fst).Nodup) :
    (∀ d cfg, (d, cfg) ∈ config →
      ∀ r ∈ getFrom (find_paths_by_difficulty sp sample G actors config).results d,
        cfg.min_connections ≤ r.connection_length ∧
          r.connection_length ≤ cfg.max_connections) ∧
    (find_paths_by_difficulty sp sample G actors config).computed.Nodup := by
  have hB : BInv config (find_paths_by_difficulty sp sample G actors config) := by
    simp only [find_paths_by_difficulty]
    apply foldl_pres_mem _ (BInv config) config
    · intro s x hx hs
      exact BInv_processTier config hnd sp sample G actors _ _ s x hx hs
    · exact fun x hx => hx
    · intro d cfg _ r hr
      rw [getFrom_init] at hr
      exact absurd hr (List.not_mem_nil r)
  exact ⟨hB, (DInv_find_paths sp sample G actors config).1⟩

/-- Difficulty configuration used for the C6 witness. -/
def c6Config : List (String × TierConfig) := [("easy", ⟨1, 2, 1000⟩)]

/-- Shortest-path oracle used for the C6 witness: the two actors of
`wActors` are adjacent. -/
def c6sp : String → String → Option (List String) := fun a b =>
  if a == "1" && b == "2" then some ["1", "2"]
  else if a == "2" && b == "1" then some ["2", "1"] else none

/-- Sampling draw used for the C6 witness. -/
def c6sample : String → String → List String := fun _ s =>
  if s == "1" then ["2"] else ["1"]

/-- Witness for C6 at a concrete run: the configuration keys are
duplicate-free, the shortest-path log has no repeats, and every record
accepted into the `easy` tier satisfies its 1..2 bounds. -/
theorem c6_tier_bounds_and_pair_dedup_witness :
    (c6Config.map Prod.fst).Nodup ∧
    (find_paths_by_difficulty c6sp c6sample
        (build_actor_graph 2026 10 true wActors) wActors c6Config).computed.Nodup ∧
    (∀ r ∈ getFrom (find_paths_by_difficulty c6sp c6sample
          (build_actor_graph 2026 10 true wActors) wActors c6Config).results
        "easy",
      1 ≤ r.connection_length ∧ r.connection_length ≤ 2) :=
  ⟨by decide,
   (c6_tier_bounds_and_pair_dedup c6sp c6sample
     (build_actor_graph 2026 10 true wActors) wActors c6Config (by decide)).2,
   fun r hr =>
     (c6_tier_bounds_and_pair_dedup c6sp c6sample
       (build_actor_graph 2026 10 true wActors) wActors c6Config (by decide)).1
       "easy" ⟨1, 2, 1000⟩ (by decide) r hr⟩
